import Mathlib

/-!
Verification of the `FocusTrap` component
(`packages/@headlessui-vue/src/components/focus-trap/focus-trap.ts`).

Elements are modelled as natural numbers.  The DOM facts the component
consults (containment, focusable descendants, the focus-guard marker)
are packaged in a `DomModel`.  Side effects on the document (which
element is focused, which external focus-walker capabilities were
invoked) are threaded through an `EffectState`.
-/

/-- DOM facts consulted by the focus trap: `containsDom c e` is
`c.contains(e)`, `focusables r` is the ordered list of focusable
descendants of `r`, and `guard e` tells whether `e` carries the
`data-headlessui-focus-guard="true"` marker. -/
structure DomModel where
  containsDom : Nat → Nat → Bool
  focusables : Nat → List Nat
  guard : Nat → Bool

/-- Target selectors of the external sequential-focus walker
(`Focus.First`, `Focus.Last`, `Focus.Next`, `Focus.Previous`). -/
inductive TargetSpec where
  | first
  | last
  | next
  | previous
deriving DecidableEq, Repr

/-- A record of one invocation of the external focus capabilities:
either `focusIn root spec wrapAround noScroll skipElements relativeTo`
or `focusElement el`. -/
inductive WalkerCall where
  | focusInCall (root : Option Nat) (spec : TargetSpec) (wrap : Bool)
      (noScroll : Bool) (skip : List (Option Nat)) (relativeTo : Option Nat)
  | focusElementCall (el : Nat)
deriving DecidableEq, Repr

/-- Document-level effect state: the currently focused element and the
log of external focus calls made so far. -/
structure EffectState where
  activeElement : Option Nat
  calls : List WalkerCall
deriving DecidableEq, Repr

/-- Modelled from the spec: `focusElement(el)` of the external
focus-management collaborator is "imperative, unconditional" — it moves
focus onto the given element. -/
def focusElement (s : EffectState) (el : Nat) : EffectState :=
  { activeElement := some el,
    calls := s.calls ++ [WalkerCall.focusElementCall el] }

/-- Result codes of the walker: success or no-candidate-found. -/
inductive FocusResult where
  | success
  | error
deriving DecidableEq, Repr

/-- Modelled from the spec: the sequential focus-order walker capability
"find next/previous/first/last focusable element within a root,
optionally skipping given elements, optionally wrapping".  Selects the
candidate element, or `none` when there is no candidate. -/
def walkerSelect (dm : DomModel) (root : Option Nat) (spec : TargetSpec)
    (wrap : Bool) (skip : List (Option Nat)) (relativeTo : Option Nat) :
    Option Nat :=
  let fs :=
    match root with
    | none => []
    | some r => (dm.focusables r).filter (fun e => !(skip.contains (some e)))
  match spec with
  | TargetSpec.first => fs.head?
  | TargetSpec.last => fs.getLast?
  | TargetSpec.next =>
    match relativeTo with
    | none => fs.head?
    | some r =>
      match fs.findIdx? (fun e => e = r) with
      | none => fs.head?
      | some i => if wrap then fs.get? ((i + 1) % fs.length) else fs.get? (i + 1)
  | TargetSpec.previous =>
    match relativeTo with
    | none => fs.getLast?
    | some r =>
      match fs.findIdx? (fun e => e = r) with
      | none => fs.getLast?
      | some i =>
        if wrap then fs.get? ((i + fs.length - 1) % fs.length)
        else if i = 0 then none else fs.get? (i - 1)

/-- Modelled from the spec: `focusIn(root, selector, options)` of the
external walker — finds the candidate and focuses it, "returns success
or no-candidate-found".  The invocation is logged. -/
def focusIn (dm : DomModel) (root : Option Nat) (spec : TargetSpec)
    (wrap : Bool) (noScroll : Bool) (skip : List (Option Nat))
    (relativeTo : Option Nat) (s : EffectState) : FocusResult × EffectState :=
  let logged := s.calls ++ [WalkerCall.focusInCall root spec wrap noScroll skip relativeTo]
  match walkerSelect dm root spec wrap skip relativeTo with
  | none => (FocusResult.error, { s with calls := logged })
  | some e => (FocusResult.success, { activeElement := some e, calls := logged })

namespace Features

/-- `Features.None = 1 << 0` -/
def None : Nat := 1 <<< 0

/-- `Features.InitialFocus = 1 << 1` -/
def InitialFocus : Nat := 1 <<< 1

/-- `Features.TabLock = 1 << 2` -/
def TabLock : Nat := 1 <<< 2

/-- `Features.FocusLock = 1 << 3` -/
def FocusLock : Nat := 1 <<< 3

/-- `Features.RestoreFocus = 1 << 4` -/
def RestoreFocus : Nat := 1 <<< 4

/-- `Features.All = InitialFocus | TabLock | FocusLock | RestoreFocus` -/
def All : Nat := InitialFocus ||| TabLock ||| FocusLock ||| RestoreFocus

end Features

/-- The `contains` helper at the bottom of focus-trap.ts: iterates the
container refs and checks `container.value?.contains(element)`. -/
def contains (dm : DomModel) (containers : List (Option Nat)) (element : Nat) :
    Bool :=
  containers.any (fun c =>
    match c with
    | some ce => dm.containsDom ce element
    | none => false)

/-- C3 counterexample: `Features.None` is `1 << 0 = 1`, not `0` as the
claim states. -/
theorem features_none_is_not_zero : Features.None ≠ 0 := by decide

/-- C3 (amended): `Features.None` equals 1 (bit 0, a bit no feature
check inspects); `InitialFocus`, `TabLock`, `FocusLock`, `RestoreFocus`
are the distinct single-bit flags 2, 4, 8, 16; and `All` is the bitwise
OR of those four flags. -/
theorem features_bitmask_layout :
    Features.None = 1
  ∧ Features.InitialFocus = 2 ∧ Features.TabLock = 4
  ∧ Features.FocusLock = 8 ∧ Features.RestoreFocus = 16
  ∧ Features.All
      = (Features.InitialFocus ||| Features.TabLock |||
          Features.FocusLock ||| Features.RestoreFocus)
  ∧ Features.All = 30 := by
  refine ⟨rfl, rfl, rfl, rfl, rfl, rfl, by decide⟩

/-- Result of one run of the `useFocusLock` capturing focus listener:
the (possibly updated) previous-active-element ref, whether the event's
default effect and propagation were cancelled, and the effect state. -/
structure FocusLockResult where
  previousActiveElement : Option Nat
  defaultPrevented : Bool
  propagationStopped : Bool
  state : EffectState
deriving DecidableEq, Repr

/-- The `useFocusLock` listener body (focus-trap.ts lines 317-339):
bail when disabled, build `allContainers` from the extra containers
plus the trap container, bail when no previous active element is
recorded, then either redirect an outside target back (cancelling the
event) or accept an inside target as the new previous active element. -/
def focusLockHandler (dm : DomModel) (enabled : Bool)
    (containers : List (Option Nat)) (container : Option Nat)
    (previousActiveElement : Option Nat) (target : Option Nat)
    (s : EffectState) : FocusLockResult :=
  if enabled = false then ⟨previousActiveElement, false, false, s⟩
  else
    let allContainers := containers ++ [container]
    match previousActiveElement with
    | none => ⟨previousActiveElement, false, false, s⟩
    | some previous =>
      match target with
      | some toElement =>
        if contains dm allContainers toElement = false then
          ⟨previousActiveElement, true, true, focusElement s previous⟩
        else
          ⟨some toElement, false, false, focusElement s toElement⟩
      | none => ⟨previousActiveElement, false, false, focusElement s previous⟩

/-- `containerElement!.contains(activeElement)` where the active element
may be absent (`contains(undefined)` is false). -/
def optContains (dm : DomModel) (c : Nat) (a : Option Nat) : Bool :=
  match a with
  | some x => dm.containsDom c x
  | none => false

/-- Result of the deferred initial-focus microtask: the
previous-active-element ref, the effect state, and whether the
"no focusable elements" advisory was emitted via `console.warn`. -/
structure InitialFocusResult where
  previousActiveElement : Option Nat
  state : EffectState
  warned : Bool
deriving DecidableEq, Repr

/-- The deferred microtask body of `useInitialFocus` (focus-trap.ts
lines 261-290): abort when unmounted; accept the active element when it
is the explicit initial-focus target or already inside the container;
otherwise focus the explicit target, or the first focusable descendant
of the container without scrolling (warning when none exists); finally
record the now-active element as previous active element. -/
def initialFocusDecision (dm : DomModel) (mounted : Bool)
    (containerElement : Nat) (initialFocusElement : Option Nat)
    (s : EffectState) (previousActiveElement : Option Nat) :
    InitialFocusResult :=
  if mounted = false then ⟨previousActiveElement, s, false⟩
  else
    let activeElement := s.activeElement
    match initialFocusElement with
    | some ife =>
      if some ife = activeElement then ⟨activeElement, s, false⟩
      else
        let s2 := focusElement s ife
        ⟨s2.activeElement, s2, false⟩
    | none =>
      if optContains dm containerElement activeElement = true then
        ⟨activeElement, s, false⟩
      else
        match focusIn dm (some containerElement) TargetSpec.first false true [] none s with
        | (FocusResult.error, s2) => ⟨s2.activeElement, s2, true⟩
        | (FocusResult.success, s2) => ⟨s2.activeElement, s2, false⟩

/-- The `useInitialFocus` watch body (focus-trap.ts lines 246-261):
when the InitialFocus feature is disabled, or the container ref is
null, no decision is scheduled; otherwise the decision microtask runs
against the captured container element. -/
def initialFocusTrigger (dm : DomModel) (enabled : Bool)
    (container : Option Nat) (mounted : Bool)
    (initialFocusElement : Option Nat) (s : EffectState)
    (previousActiveElement : Option Nat) : Option InitialFocusResult :=
  if enabled = false then none
  else
    match container with
    | none => none
    | some c =>
      some (initialFocusDecision dm mounted c initialFocusElement s previousActiveElement)

/-- State of the `useRestoreFocus` manager: the captured restore
element, if any. -/
structure RestoreState where
  restoreElement : Option Nat
deriving DecidableEq, Repr

/-- `captureFocus` (focus-trap.ts lines 188-191): no-op when a restore
element is already held, otherwise capture the document's current
active element. -/
def captureFocus (active : Option Nat) (rs : RestoreState) : RestoreState :=
  match rs.restoreElement with
  | some _ => rs
  | none => ⟨active⟩

/-- `restoreFocusIfNeeded` (focus-trap.ts lines 194-198): when a
restore element is held, focus it and clear the ref; otherwise no-op. -/
def restoreFocusIfNeeded (rs : RestoreState) (s : EffectState) :
    RestoreState × EffectState :=
  match rs.restoreElement with
  | none => (rs, s)
  | some el => (⟨none⟩, focusElement s el)

/-- The `useRestoreFocus` watch body (focus-trap.ts lines 201-215),
fired with `immediate: true` so the first invocation has no previous
value: bail when the flag did not change, capture on a rising edge,
restore on a falling edge. -/
def restoreWatch (newValue : Bool) (prevValue : Option Bool)
    (rs : RestoreState) (s : EffectState) : RestoreState × EffectState :=
  if prevValue = some newValue then (rs, s)
  else if newValue then (captureFocus s.activeElement rs, s)
  else restoreFocusIfNeeded rs s

/-- The `onUnmounted(restoreFocusIfNeeded)` teardown hook of
`useRestoreFocus` (focus-trap.ts line 219). -/
def restoreUnmount (rs : RestoreState) (s : EffectState) :
    RestoreState × EffectState :=
  restoreFocusIfNeeded rs s

/-- Tab direction tracked by the `useTabDirection` hook. -/
inductive TabDirection where
  | forwards
  | backwards
deriving DecidableEq, Repr

/-- The `match(direction.value, {Forwards: Focus.Next, Backwards:
Focus.Previous})` table inside `handleBlur`. -/
def dirSpec : TabDirection → TargetSpec
  | TabDirection.forwards => TargetSpec.next
  | TabDirection.backwards => TargetSpec.previous

/-- `handleBlur` (focus-trap.ts lines 110-143): ignore when there is no
`relatedTarget`, when it carries the focus-guard marker, or when it
lies inside the effective container set; otherwise redirect — via the
walker relative to `event.target` with wrap-around when the blur was
keyboard-driven, or straight back onto `event.target` otherwise. -/
def handleBlur (dm : DomModel) (containers : List (Option Nat))
    (container : Option Nat) (recentlyUsedTabKey : Bool)
    (direction : TabDirection) (relatedTarget : Option Nat)
    (target : Option Nat) (s : EffectState) : EffectState :=
  let allContainers := containers ++ [container]
  match relatedTarget with
  | none => s
  | some rt =>
    if dm.guard rt = true then s
    else if contains dm allContainers rt = false then
      if recentlyUsedTabKey then
        (focusIn dm container (dirSpec direction) true false [] target s).2
      else
        match target with
        | some t => focusElement s t
        | none => s
    else s

/-- `handleFocus` (focus-trap.ts lines 84-98): bail when the container
ref is null; otherwise focus the first (direction Forwards) or last
(direction Backwards) focusable descendant of the trap root, skipping
the event's `relatedTarget`. -/
def handleFocus (dm : DomModel) (container : Option Nat)
    (direction : TabDirection) (relatedTarget : Option Nat)
    (s : EffectState) : EffectState :=
  match container with
  | none => s
  | some el =>
    match direction with
    | TabDirection.forwards =>
      (focusIn dm (some el) TargetSpec.first false false [relatedTarget] none s).2
    | TabDirection.backwards =>
      (focusIn dm (some el) TargetSpec.last false false [relatedTarget] none s).2

/-- Nodes produced by the `FocusTrap` render function: the two
focus-guard sentinels (`Hidden` buttons with
`data-headlessui-focus-guard` and `onFocus: handleFocus`) and the
rendered trapped content. -/
inductive RenderNode where
  | sentinelGuard
  | content
deriving DecidableEq, Repr

/-- The `FocusTrap` render function (focus-trap.ts lines 145-176): a
fragment whose first and last children are the sentinel guards, present
exactly when the TabLock feature bit is set, bracketing the content. -/
def renderFocusTrap (features : Nat) : List RenderNode :=
  (if features &&& Features.TabLock ≠ 0 then [RenderNode.sentinelGuard] else [])
    ++ [RenderNode.content]
    ++ (if features &&& Features.TabLock ≠ 0 then [RenderNode.sentinelGuard] else [])

/-- Filtering against an empty skip list keeps every element. -/
lemma filter_noskip (l : List Nat) :
    List.filter (fun e => !(List.contains ([] : List (Option Nat)) (some e))) l = l := by
  induction l with
  | nil => rfl
  | cons x xs ih => simp [List.filter, ih]

/-- With selector First, no skip list and no wrap, the walker picks the
head of the focusable-descendants list. -/
lemma walkerSelect_first_noskip (dm : DomModel) (r : Nat) :
    walkerSelect dm (some r) TargetSpec.first false [] none
      = (dm.focusables r).head? := by
  unfold walkerSelect
  simp [filter_noskip]

/-- A concrete DOM used as a witness: element `c` contains the elements
`c` through `c + 3`, the focusable descendants of `r` are
`r + 1, r + 2, r + 3`, and element 100 is a focus guard. -/
def dmW : DomModel :=
  ⟨fun c e => decide (c ≤ e ∧ e ≤ c + 3),
   fun r => [r + 1, r + 2, r + 3],
   fun e => e == 100⟩

/-- The witness DOM's focusable descendants lie inside their root. -/
lemma dmW_wf : ∀ r e, e ∈ dmW.focusables r → dmW.containsDom r e = true := by
  intro r e h
  simp [dmW] at h ⊢
  rcases h with h | h | h <;> subst h <;> omega

/-- C1: with FocusLock enabled and a non-null previous active element,
a focus event whose element target falls outside the effective
container set is cancelled (default and propagation) and focus is
forced back to the previous active element, which is left unchanged;
a target inside the set is accepted: it becomes the new previous
active element and focus is (re)applied to it. -/
theorem useFocusLock_redirects_or_accepts (dm : DomModel)
    (containers : List (Option Nat)) (container : Option Nat)
    (p t : Nat) (s : EffectState) :
    (contains dm (containers ++ [container]) t = false →
      focusLockHandler dm true containers container (some p) (some t) s
        = ⟨some p, true, true, focusElement s p⟩)
  ∧ (contains dm (containers ++ [container]) t = true →
      focusLockHandler dm true containers container (some p) (some t) s
        = ⟨some t, false, false, focusElement s t⟩) := by
  constructor <;> intro h <;> simp [focusLockHandler, h]

/-- C1 witness: element 50 is outside container 10, so the event is
cancelled and focus returns to element 11. -/
theorem useFocusLock_redirects_or_accepts_witness :
    focusLockHandler dmW true [] (some 10) (some 11) (some 50) ⟨some 50, []⟩
      = ⟨some 11, true, true, focusElement ⟨some 50, []⟩ 11⟩ :=
  (useFocusLock_redirects_or_accepts dmW [] (some 10) 11 50 ⟨some 50, []⟩).1 (by decide)

/-- C10: the focus-lock listener leaves the previous-active-element ref
unchanged whenever the target is an element outside the effective
container set; any run that does change the ref set it to an element
target that was inside the container set. -/
theorem useFocusLock_frame (dm : DomModel) (enabled : Bool)
    (containers : List (Option Nat)) (container : Option Nat)
    (prev : Option Nat) (tgt : Option Nat) (s : EffectState) :
    (∀ t, tgt = some t → contains dm (containers ++ [container]) t = false →
      (focusLockHandler dm enabled containers container prev tgt s).previousActiveElement
        = prev)
  ∧ ((focusLockHandler dm enabled containers container prev tgt s).previousActiveElement
        ≠ prev →
      ∃ t, tgt = some t ∧ contains dm (containers ++ [container]) t = true ∧
        (focusLockHandler dm enabled containers container prev tgt s).previousActiveElement
          = some t) := by
  constructor
  · intro t ht hc
    subst ht
    cases enabled with
    | false => simp [focusLockHandler]
    | true =>
      cases prev with
      | none => simp [focusLockHandler]
      | some p => simp [focusLockHandler, hc]
  · intro hne
    cases enabled with
    | false => simp [focusLockHandler] at hne
    | true =>
      cases prev with
      | none => simp [focusLockHandler] at hne
      | some p =>
        cases tgt with
        | none => simp [focusLockHandler] at hne
        | some t =>
          by_cases hc : contains dm (containers ++ [container]) t = false
          · simp [focusLockHandler, hc] at hne
          · simp only [Bool.not_eq_false] at hc
            exact ⟨t, rfl, hc, by simp [focusLockHandler, hc]⟩

/-- C10 witness: element 50 is outside container 10 and the ref keeps
its value `some 11`. -/
theorem useFocusLock_frame_witness :
    (focusLockHandler dmW true [] (some 10) (some 11) (some 50)
        ⟨some 50, []⟩).previousActiveElement = some 11 :=
  (useFocusLock_frame dmW true [] (some 10) (some 11) (some 50) ⟨some 50, []⟩).1
    50 rfl (by decide)

/-- C9: when the owning component has been unmounted before the
deferred microtask runs, the initial-focus decision is a no-op: the
previous-active-element ref, the focused element and the call log are
all unchanged and no warning is emitted. -/
theorem initialFocus_noop_after_unmount (dm : DomModel) (c : Nat)
    (ife : Option Nat) (s : EffectState) (p : Option Nat) :
    initialFocusDecision dm false c ife s p = ⟨p, s, false⟩ := rfl

/-- C8: when the explicit initial-focus target is already the active
element, or there is no explicit target and the container already
contains the active element, the decision performs no focus movement
(state untouched, no walker calls) and records the current active
element as previous active element. -/
theorem initialFocus_already_settled (dm : DomModel) (c : Nat)
    (s : EffectState) (p : Option Nat) :
    (∀ t, s.activeElement = some t →
      initialFocusTrigger dm true (some c) true (some t) s p
        = some ⟨some t, s, false⟩)
  ∧ (optContains dm c s.activeElement = true →
      initialFocusTrigger dm true (some c) true none s p
        = some ⟨s.activeElement, s, false⟩) := by
  constructor
  · intro t ht
    simp [initialFocusTrigger, initialFocusDecision, ht]
  · intro h
    simp [initialFocusTrigger, initialFocusDecision, h]

/-- C8 witness: with active element 11 inside container 10 and no
explicit target, nothing moves and 11 is recorded. -/
theorem initialFocus_already_settled_witness :
    initialFocusTrigger dmW true (some 10) true none ⟨some 11, []⟩ none
      = some ⟨some 11, ⟨some 11, []⟩, false⟩ :=
  (initialFocus_already_settled dmW 10 ⟨some 11, []⟩ none).2 (by decide)

/-- C4: with InitialFocus enabled, no explicit target and the active
element outside the container, the decision asks the walker for the
first focusable descendant with the no-scroll option; when the
container has no focusable descendant the advisory warning is emitted
and the focused element is unchanged, otherwise focus lands on the
first focusable descendant without a warning. -/
theorem initialFocus_first_focusable_or_warn (dm : DomModel) (c : Nat)
    (s : EffectState) (p : Option Nat)
    (hout : optContains dm c s.activeElement = false) :
    (dm.focusables c = [] →
      initialFocusTrigger dm true (some c) true none s p
        = some ⟨s.activeElement,
            ⟨s.activeElement,
              s.calls ++ [WalkerCall.focusInCall (some c) TargetSpec.first false true [] none]⟩,
            true⟩)
  ∧ (∀ e rest, dm.focusables c = e :: rest →
      initialFocusTrigger dm true (some c) true none s p
        = some ⟨some e,
            ⟨some e,
              s.calls ++ [WalkerCall.focusInCall (some c) TargetSpec.first false true [] none]⟩,
            false⟩) := by
  constructor
  · intro hfoc
    simp [initialFocusTrigger, initialFocusDecision, hout, focusIn,
      walkerSelect_first_noskip, hfoc]
  · intro e rest hfoc
    simp [initialFocusTrigger, initialFocusDecision, hout, focusIn,
      walkerSelect_first_noskip, hfoc]

/-- C4 witness: active element 50 is outside container 10, whose first
focusable descendant is 11; focus lands on 11 with a logged
no-scroll First walk and no warning. -/
theorem initialFocus_first_focusable_or_warn_witness :
    initialFocusTrigger dmW true (some 10) true none ⟨some 50, []⟩ none
      = some ⟨some 11,
          ⟨some 11,
            [WalkerCall.focusInCall (some 10) TargetSpec.first false true [] none]⟩,
          false⟩ :=
  (initialFocus_first_focusable_or_warn dmW 10 ⟨some 50, []⟩ none (by decide)).2
    11 [12, 13] (by decide)

/-- A DOM with no containment, no focusable elements and no guards,
used to exhibit the unverified previous-active-element assignment. -/
def c2dm : DomModel := ⟨fun _ _ => false, fun _ => [], fun _ => false⟩

/-- C2 counterexample: with no explicit initial-focus target, active
element 5 outside container 1 and no focusable descendant, the
decision assigns `previousActiveElement := some 5` even though element
5 is not contained in the container set and is not the initial-focus
target — the assignment is not verified. -/
theorem previousActiveElement_unverified_assignment :
    (initialFocusDecision c2dm true 1 none ⟨some 5, []⟩ none).previousActiveElement
        = some 5
  ∧ c2dm.containsDom 1 5 = false := ⟨rfl, rfl⟩

/-- C2 (amended): whenever an operation of the trap makes the
previous-active-element ref non-null, the assigned element is contained
in the container (focus-lock accept branch, already-inside branch, or a
successful walk to a focusable descendant), or is the explicit
initial-focus target, or — when the initial-focus walk finds no
focusable descendant — is the unverified pre-existing active element,
which may lie outside the container set. -/
theorem previousActiveElement_assignment_sources (dm : DomModel)
    (hwf : ∀ r e, e ∈ dm.focusables r → dm.containsDom r e = true) :
    (∀ c ife s p e,
      (initialFocusDecision dm true c ife s p).previousActiveElement = some e →
        dm.containsDom c e = true ∨ ife = some e ∨
        (ife = none ∧ dm.focusables c = [] ∧ s.activeElement = some e))
  ∧ (∀ enabled containers container prev tgt s e,
      (focusLockHandler dm enabled containers container prev tgt s).previousActiveElement
          = some e →
        prev = some e ∨
        (tgt = some e ∧ contains dm (containers ++ [container]) e = true)) := by
  constructor
  · intro c ife s p e h
    cases ife with
    | some t =>
      by_cases hact : some t = s.activeElement
      · simp [initialFocusDecision, hact] at h
        rw [← hact] at h
        exact Or.inr (Or.inl (by rw [h]))
      · simp [initialFocusDecision, hact, focusElement] at h
        exact Or.inr (Or.inl (by rw [h]))
    | none =>
      by_cases hin : optContains dm c s.activeElement = true
      · simp [initialFocusDecision, hin] at h
        rw [h] at hin
        exact Or.inl (by simpa [optContains] using hin)
      · simp only [Bool.not_eq_true] at hin
        cases hfoc : dm.focusables c with
        | nil =>
          simp [initialFocusDecision, hin, focusIn, walkerSelect_first_noskip, hfoc] at h
          exact Or.inr (Or.inr ⟨rfl, rfl, h⟩)
        | cons x rest =>
          simp [initialFocusDecision, hin, focusIn, walkerSelect_first_noskip, hfoc] at h
          refine Or.inl ?_
          rw [← h]
          exact hwf c x (by rw [hfoc]; exact List.mem_cons_self x rest)
  · intro enabled containers container prev tgt s e h
    cases enabled with
    | false => simp [focusLockHandler] at h; exact Or.inl h
    | true =>
      cases prev with
      | none => simp [focusLockHandler] at h
      | some q =>
        cases tgt with
        | none => simp [focusLockHandler] at h; exact Or.inl (by rw [h])
        | some t =>
          by_cases hc : contains dm (containers ++ [container]) t = false
          · simp [focusLockHandler, hc] at h
            exact Or.inl (by rw [h])
          · simp only [Bool.not_eq_false] at hc
            simp [focusLockHandler, hc] at h
            exact Or.inr ⟨by rw [h], by rw [← h]; exact hc⟩

/-- C2 amended witness: in the witness DOM the run that focuses the
first focusable descendant 11 of container 10 yields an element the
container does contain. -/
theorem previousActiveElement_assignment_sources_witness :
    dmW.containsDom 10 11 = true ∨ (none : Option Nat) = some 11 ∨
      ((none : Option Nat) = none ∧ dmW.focusables 10 = [] ∧
        (EffectState.mk (some 50) []).activeElement = some 11) :=
  (previousActiveElement_assignment_sources dmW dmW_wf).1 10 none
    ⟨some 50, []⟩ none 11 (by decide)

/-- C5: the restore-focus manager captures the current active element
on a rising edge of the RestoreFocus flag (from false or from the unset
creation state) unless one is already captured; on a falling edge, and
unconditionally at teardown, a held restore element receives focus and
the ref is cleared, while nothing happens when none is held. -/
theorem useRestoreFocus_spec (s : EffectState) :
    (∀ prev, prev ≠ some true →
      restoreWatch true prev ⟨none⟩ s = (⟨s.activeElement⟩, s))
  ∧ (∀ prev e, prev ≠ some true →
      restoreWatch true prev ⟨some e⟩ s = (⟨some e⟩, s))
  ∧ (∀ e, restoreWatch false (some true) ⟨some e⟩ s = (⟨none⟩, focusElement s e))
  ∧ (restoreWatch false (some true) ⟨none⟩ s = (⟨none⟩, s))
  ∧ (∀ e, restoreUnmount ⟨some e⟩ s = (⟨none⟩, focusElement s e))
  ∧ (restoreUnmount ⟨none⟩ s = (⟨none⟩, s)) := by
  refine ⟨?_, ?_, ?_, ?_, ?_, ?_⟩
  · intro prev hprev
    simp [restoreWatch, captureFocus, hprev]
  · intro prev e hprev
    simp [restoreWatch, captureFocus, hprev]
  · intro e
    simp [restoreWatch, restoreFocusIfNeeded]
  · simp [restoreWatch, restoreFocusIfNeeded]
  · intro e
    simp [restoreUnmount, restoreFocusIfNeeded]
  · simp [restoreUnmount, restoreFocusIfNeeded]

/-- C5 witness: the initial immediate watch call with the flag true and
no previous value captures active element 3. -/
theorem useRestoreFocus_spec_witness :
    restoreWatch true none ⟨none⟩ ⟨some 3, []⟩ = (⟨some 3⟩, ⟨some 3, []⟩) :=
  (useRestoreFocus_spec ⟨some 3, []⟩).1 none (by decide)

/-- C6: the focus-out handler ignores events with no `relatedTarget`,
a guard-marked `relatedTarget`, or a `relatedTarget` inside the
effective container set; for an escaping `relatedTarget` it walks to
the next (Forwards) or previous (Backwards) focusable element relative
to `event.target` with wrap-around inside the trap root when the blur
was keyboard-driven, and refocuses `event.target` itself otherwise. -/
theorem handleBlur_spec (dm : DomModel) (containers : List (Option Nat))
    (container : Option Nat) (rt : Nat) (direction : TabDirection)
    (tab : Bool) (tgt : Option Nat) (s : EffectState) :
    (handleBlur dm containers container tab direction none tgt s = s)
  ∧ (dm.guard rt = true →
      handleBlur dm containers container tab direction (some rt) tgt s = s)
  ∧ (contains dm (containers ++ [container]) rt = true →
      handleBlur dm containers container tab direction (some rt) tgt s = s)
  ∧ (dm.guard rt = false → contains dm (containers ++ [container]) rt = false →
      handleBlur dm containers container true direction (some rt) tgt s
        = (focusIn dm container (dirSpec direction) true false [] tgt s).2)
  ∧ (∀ e, dm.guard rt = false → contains dm (containers ++ [container]) rt = false →
      walkerSelect dm container (dirSpec direction) true [] tgt = some e →
      (handleBlur dm containers container true direction (some rt) tgt s).activeElement
        = some e)
  ∧ (∀ t, dm.guard rt = false → contains dm (containers ++ [container]) rt = false →
      handleBlur dm containers container false direction (some rt) (some t) s
        = focusElement s t) := by
  refine ⟨?_, ?_, ?_, ?_, ?_, ?_⟩
  · rfl
  · intro hg
    simp [handleBlur, hg]
  · intro hc
    by_cases hg : dm.guard rt = true
    · simp [handleBlur, hg]
    · simp only [Bool.not_eq_true] at hg
      simp [handleBlur, hg, hc]
  · intro hg hc
    simp [handleBlur, hg, hc]
  · intro e hg hc hws
    simp [handleBlur, hg, hc, focusIn, hws]
  · intro t hg hc
    simp [handleBlur, hg, hc]

/-- C6 witness: element 50 escapes container 10 after a pointer blur
(tab flag false); focus returns straight onto the event target 2. -/
theorem handleBlur_spec_witness :
    handleBlur dmW [] (some 10) false TabDirection.forwards (some 50) (some 2)
        ⟨some 2, []⟩
      = focusElement ⟨some 2, []⟩ 2 :=
  (handleBlur_spec dmW [] (some 10) 50 TabDirection.forwards false (some 2)
    ⟨some 2, []⟩).2.2.2.2.2 2 (by decide) (by decide)

/-- C7: the render output brackets the content with the two focus-guard
sentinels exactly when the TabLock bit is set; a sentinel focus event
makes the handler walk to the first focusable descendant of the trap
root for direction Forwards and to the last for Backwards, passing the
event's `relatedTarget` as the element to skip. -/
theorem tabLock_sentinels_and_guard_focus (dm : DomModel) (features : Nat)
    (el : Nat) (rt : Option Nat) (s : EffectState) :
    (features &&& Features.TabLock ≠ 0 →
      renderFocusTrap features
        = [RenderNode.sentinelGuard, RenderNode.content, RenderNode.sentinelGuard])
  ∧ (features &&& Features.TabLock = 0 →
      renderFocusTrap features = [RenderNode.content])
  ∧ (handleFocus dm (some el) TabDirection.forwards rt s
      = (focusIn dm (some el) TargetSpec.first false false [rt] none s).2)
  ∧ (handleFocus dm (some el) TabDirection.backwards rt s
      = (focusIn dm (some el) TargetSpec.last false false [rt] none s).2)
  ∧ (∀ e, walkerSelect dm (some el) TargetSpec.first false [rt] none = some e →
      (handleFocus dm (some el) TabDirection.forwards rt s).activeElement = some e)
  ∧ (∀ e, walkerSelect dm (some el) TargetSpec.last false [rt] none = some e →
      (handleFocus dm (some el) TabDirection.backwards rt s).activeElement = some e) := by
  refine ⟨?_, ?_, rfl, rfl, ?_, ?_⟩
  · intro h
    simp [renderFocusTrap, h]
  · intro h
    simp [renderFocusTrap, h]
  · intro e hws
    simp [handleFocus, focusIn, hws]
  · intro e hws
    simp [handleFocus, focusIn, hws]

/-- C7 witness: with all features enabled the sentinels bracket the
content, and a forwards sentinel focus entered from element 12 lands on
the first focusable descendant of container 10 other than 12,
namely 11. -/
theorem tabLock_sentinels_and_guard_focus_witness :
    renderFocusTrap Features.All
        = [RenderNode.sentinelGuard, RenderNode.content, RenderNode.sentinelGuard]
  ∧ (handleFocus dmW (some 10) TabDirection.forwards (some 12)
        ⟨some 12, []⟩).activeElement = some 11 :=
  ⟨(tabLock_sentinels_and_guard_focus dmW Features.All 10 (some 12)
      ⟨some 12, []⟩).1 (by decide),
   (tabLock_sentinels_and_guard_focus dmW Features.All 10 (some 12)
      ⟨some 12, []⟩).2.2.2.2.1 11 (by decide)⟩
